import Mathlib

/-!
Shallow embedding of the wabarc/logger package (src/logger.go) and proofs of
the specification claims about it.

Modelling conventions:
* `LogLevel` is Go's `uint32`; since the only arithmetic on it is comparison,
  it is embedded as `Nat` (every reachable value is nonnegative, which is
  exactly the unsignedness the claims appeal to).
* Color escape codes are ignored throughout, as the claims themselves do:
  `color.XString("%s", l)` renders the level's `String()` form, so the
  `colorable` map is embedded as the plain short name for the five mapped
  keys and Go's zero value `""` for a missing key.
* `time.Now()` is an input: the current local time is passed in as a
  `DateTime` record, and Go's layout string "2006-01-02T15:04:05" is embedded
  as `formatTime` (zero-padded fields joined by `-`, `T`, `:`).
* The call-site data produced by `runtime.Caller(2)` / `runtime.FuncForPC`
  is an input `CallSite` record; an unresolvable frame yields `file = ""`,
  `line = 0`, `funcName = ""` (Go's degraded values).
* The user message after printf substitution is an opaque input string
  (Go's `fmt` is total: mismatches yield mangled text, never an error).
* Writes to stderr and `os.Exit(1)` are recorded as an `Event` trace.
-/

namespace WabarcLogger

/-- Go: `type LogLevel uint32`. -/
abbrev LogLevel := Nat

/-- Go: `LevelFatal LogLevel = iota` (= 0). -/
def LevelFatal : LogLevel := 0

/-- Go: `LevelError` (= 1). -/
def LevelError : LogLevel := 1

/-- Go: `LevelWarn` (= 2). -/
def LevelWarn : LogLevel := 2

/-- Go: `LevelInfo` (= 3). -/
def LevelInfo : LogLevel := 3

/-- Go: `LevelDebug` (= 4). -/
def LevelDebug : LogLevel := 4

/-- Go: `func (l LogLevel) String() string` — the switch in src/logger.go
lines 48–63. -/
def logLevelString (l : LogLevel) : String :=
  if l = LevelDebug then "DEBUG"
  else if l = LevelInfo then "INFO"
  else if l = LevelWarn then "WARN"
  else if l = LevelError then "ERROR"
  else if l = LevelFatal then "FATAL"
  else "UNKNOWN"

/-- Go: the `colorable` map (lines 40–46), with color escapes ignored:
each of the five keys maps to `color.XString("%s", key)`, i.e. the key's
`String()` value; looking up a missing key yields Go's zero value `""`. -/
def colorable (l : LogLevel) : String :=
  if l ≤ 4 then logLevelString l else ""

/-- Go: `strings.Split(s, sep)` for a one-character separator: the list of
maximal runs between occurrences of the separator (`Split("", sep) = [""]`). -/
def splitChar (c : Char) : List Char → List (List Char)
  | [] => [[]]
  | x :: xs =>
    match splitChar c xs with
    | [] => [[]]
    | y :: ys => if x = c then [] :: y :: ys else (x :: y) :: ys

/-- Go: `parts := strings.Split(s, sep); parts[len(parts)-1]` — the indexing
pattern used on both the file path and the function name in `logging`
(lines 126–131). `splitChar` never returns `[]`, so the default is dead. -/
def lastSeg (c : Char) (s : String) : String :=
  ((splitChar c s.data).getLastD []).asString

/-- The wall-clock instant that Go's `time.Now()` returns, reduced to the
fields that the layout string "2006-01-02T15:04:05" renders. -/
structure DateTime where
  year : Nat
  month : Nat
  day : Nat
  hour : Nat
  minute : Nat
  second : Nat
deriving DecidableEq

/-- Zero-pad to two digits (layout components "01", "02", "15", "04", "05"). -/
def pad2 (n : Nat) : String :=
  if n < 10 then "0" ++ toString n else toString n

/-- Zero-pad to four digits (layout component "2006", the year). -/
def pad4 (n : Nat) : String :=
  if n < 10 then "000" ++ toString n
  else if n < 100 then "00" ++ toString n
  else if n < 1000 then "0" ++ toString n
  else toString n

/-- Go: `time.Now().Format("2006-01-02T15:04:05")` (line 121). -/
def formatTime (t : DateTime) : String :=
  pad4 t.year ++ "-" ++ pad2 t.month ++ "-" ++ pad2 t.day ++ "T" ++
    pad2 t.hour ++ ":" ++ pad2 t.minute ++ ":" ++ pad2 t.second

/-- The data `runtime.Caller(2)` and `runtime.FuncForPC(pc).Name()` yield
for the frame two levels up (lines 126–129): full file path, line number,
fully qualified function name. An unresolvable frame gives `""`, `0`, `""`. -/
structure CallSite where
  file : String
  line : Nat
  funcName : String
deriving DecidableEq

/-- The package-level mutable state: `var logLevel = LevelInfo` and
`var showTime = true` (lines 17–18). -/
structure LoggerState where
  logLevel : LogLevel
  showTime : Bool
deriving DecidableEq

/-- The state at package initialization. -/
def initState : LoggerState := { logLevel := LevelInfo, showTime := true }

/-- Go: `func logging(l LogLevel, format string, v ...interface{})`
(lines 117–135), as the text of the single line written to stderr, color
escapes ignored. `msg` is the user format string after printf substitution. -/
def logging (st : LoggerState) (t : DateTime) (cs : CallSite)
    (l : LogLevel) (msg : String) : String :=
  let pre :=
    if st.showTime then
      "[" ++ formatTime t ++ "] [" ++ colorable l ++ "] "
    else
      "[" ++ colorable l ++ "] "
  let file := lastSeg '/' cs.file
  let name := lastSeg '.' cs.funcName
  let caller := "[" ++ file ++ ":" ++ toString cs.line ++ ":" ++ name ++ "] "
  pre ++ caller ++ msg ++ "\n"

/-- An observable side effect of an operation: a line written to stderr
(tagged with the severity it was rendered at) or `os.Exit(code)`. -/
inductive Event where
  | emit (l : LogLevel) (text : String)
  | exit (code : Nat)
deriving DecidableEq

/-- Go: `func DisableTime()` (lines 66–68). -/
def DisableTime (st : LoggerState) : LoggerState :=
  { st with showTime := false }

/-- Go: `func SetLogLevel(l LogLevel)` (lines 77–79). -/
def SetLogLevel (st : LoggerState) (l : LogLevel) : LoggerState :=
  { st with logLevel := l }

/-- Go: `func EnableDebug()` (lines 71–74): sets the level to Debug, then
calls `logging(LevelInfo, "Debug mode enabled")` directly, with no gate. -/
def EnableDebug (st : LoggerState) (t : DateTime) (cs : CallSite) :
    LoggerState × List Event :=
  let st1 := { st with logLevel := LevelDebug }
  (st1, [Event.emit LevelInfo (logging st1 t cs LevelInfo "Debug mode enabled")])

/-- Go: `func Debug(format string, v ...interface{})` (lines 82–86). -/
def Debug (st : LoggerState) (t : DateTime) (cs : CallSite) (msg : String) :
    LoggerState × List Event :=
  if LevelDebug ≤ st.logLevel then
    (st, [Event.emit LevelDebug (logging st t cs LevelDebug msg)])
  else (st, [])

/-- Go: `func Info(format string, v ...interface{})` (lines 89–93). -/
def Info (st : LoggerState) (t : DateTime) (cs : CallSite) (msg : String) :
    LoggerState × List Event :=
  if LevelInfo ≤ st.logLevel then
    (st, [Event.emit LevelInfo (logging st t cs LevelInfo msg)])
  else (st, [])

/-- Go: `func Warn(format string, v ...interface{})` (lines 96–100). -/
def Warn (st : LoggerState) (t : DateTime) (cs : CallSite) (msg : String) :
    LoggerState × List Event :=
  if LevelWarn ≤ st.logLevel then
    (st, [Event.emit LevelWarn (logging st t cs LevelWarn msg)])
  else (st, [])

/-- Go: `func Error(format string, v ...interface{})` (lines 103–107). -/
def Error (st : LoggerState) (t : DateTime) (cs : CallSite) (msg : String) :
    LoggerState × List Event :=
  if LevelError ≤ st.logLevel then
    (st, [Event.emit LevelError (logging st t cs LevelError msg)])
  else (st, [])

/-- Go: `func Fatal(format string, v ...interface{})` (lines 110–115):
gated like the others, and on emission follows the write with `os.Exit(1)`. -/
def Fatal (st : LoggerState) (t : DateTime) (cs : CallSite) (msg : String) :
    LoggerState × List Event :=
  if LevelFatal ≤ st.logLevel then
    (st, [Event.emit LevelFatal (logging st t cs LevelFatal msg), Event.exit 1])
  else (st, [])

/-- The level-named call at severity `S`: dispatches to the one public
function whose severity constant is `S`. -/
def callAt (S : LogLevel) (st : LoggerState) (t : DateTime) (cs : CallSite)
    (msg : String) : LoggerState × List Event :=
  match S with
  | 0 => Fatal st t cs msg
  | 1 => Error st t cs msg
  | 2 => Warn st t cs msg
  | 3 => Info st t cs msg
  | 4 => Debug st t cs msg
  | _ => (st, [])

/-- The lines written to stderr in an event trace, with their severities. -/
def emittedLines (evs : List Event) : List (LogLevel × String) :=
  evs.filterMap fun e =>
    match e with
    | Event.emit l s => some (l, s)
    | Event.exit _ => none

/-- Whether an event trace contains a process termination. -/
def hasExit (evs : List Event) : Bool :=
  evs.any fun e =>
    match e with
    | Event.emit _ _ => false
    | Event.exit _ => true

/-- One invocation of the public call surface of the package. -/
inductive Op where
  | disableTime
  | enableDebug (t : DateTime) (cs : CallSite)
  | setLogLevel (l : LogLevel)
  | debug (t : DateTime) (cs : CallSite) (msg : String)
  | info (t : DateTime) (cs : CallSite) (msg : String)
  | warn (t : DateTime) (cs : CallSite) (msg : String)
  | error (t : DateTime) (cs : CallSite) (msg : String)
  | fatal (t : DateTime) (cs : CallSite) (msg : String)
deriving DecidableEq

/-- The step of one public operation on the package state. -/
def step (st : LoggerState) : Op → LoggerState × List Event
  | Op.disableTime => (DisableTime st, [])
  | Op.enableDebug t cs => EnableDebug st t cs
  | Op.setLogLevel l => (SetLogLevel st l, [])
  | Op.debug t cs m => Debug st t cs m
  | Op.info t cs m => Info st t cs m
  | Op.warn t cs m => Warn st t cs m
  | Op.error t cs m => Error st t cs m
  | Op.fatal t cs m => Fatal st t cs m

/-- The state after one public operation. -/
def stepState (st : LoggerState) (o : Op) : LoggerState :=
  (step st o).1

/-- The state after a sequence of public operations. -/
def runOps (st : LoggerState) (ops : List Op) : LoggerState :=
  ops.foldl stepState st

/-- Spec-side reading of "the last `c`-separated segment of `l`": drop
everything up to and including the final occurrence of `c`; a list not
containing `c` is kept whole. -/
def specLastSegment (c : Char) : List Char → List Char
  | [] => []
  | x :: xs => if x = c ∨ c ∈ xs then specLastSegment c xs else x :: xs


/-! ### Helper lemmas: strings.Split / last-segment extraction -/

theorem splitChar_ne_nil (c : Char) (l : List Char) : splitChar c l ≠ [] := by
  induction l with
  | nil => simp [splitChar]
  | cons x xs ih =>
    simp only [splitChar]
    cases hr : splitChar c xs with
    | nil => exact absurd hr ih
    | cons y ys => by_cases hx : x = c <;> simp [hx]

theorem splitChar_not_mem {c : Char} : ∀ {l : List Char}, c ∉ l → splitChar c l = [l] := by
  intro l
  induction l with
  | nil => intro _; rfl
  | cons x xs ih =>
    intro h
    have hx : x ≠ c := fun he => h (by simp [he])
    have hxs : c ∉ xs := fun hm => h (List.mem_cons_of_mem _ hm)
    simp only [splitChar, ih hxs]
    simp [hx]

theorem two_le_splitChar_length {c : Char} :
    ∀ {l : List Char}, c ∈ l → 2 ≤ (splitChar c l).length := by
  intro l
  induction l with
  | nil => intro h; cases h
  | cons x xs ih =>
    intro h
    simp only [splitChar]
    cases hr : splitChar c xs with
    | nil => exact absurd hr (splitChar_ne_nil c xs)
    | cons y ys =>
      by_cases hx : x = c
      · simp only [if_pos hx, List.length_cons]
        omega
      · have hm : c ∈ xs := by
          rcases List.mem_cons.mp h with h1 | h2
          · exact absurd h1.symm hx
          · exact h2
        have hlen := ih hm
        rw [hr] at hlen
        simp only [if_neg hx, List.length_cons] at hlen ⊢
        omega

theorem getLast?_splitChar (c : Char) :
    ∀ l : List Char, (splitChar c l).getLast? = some (specLastSegment c l) := by
  intro l
  induction l with
  | nil => rfl
  | cons x xs ih =>
    simp only [splitChar, specLastSegment]
    cases hr : splitChar c xs with
    | nil => exact absurd hr (splitChar_ne_nil c xs)
    | cons y ys =>
      rw [hr] at ih
      dsimp only
      by_cases hx : x = c
      · rw [if_pos hx, if_pos (Or.inl hx)]
        rw [List.getLast?_cons_cons]
        exact ih
      · rw [if_neg hx]
        cases ys with
        | nil =>
          have hnm : c ∉ xs := by
            intro hm
            have := two_le_splitChar_length hm
            rw [hr] at this
            simp at this
          have hy : y = xs := by
            have := splitChar_not_mem hnm
            rw [hr] at this
            exact (List.cons.injEq _ _ _ _ ▸ this).1
          have : ¬ (x = c ∨ c ∈ xs) := by
            intro hor
            rcases hor with h1 | h2
            · exact hx h1
            · exact hnm h2
          rw [if_neg this, hy]
          rfl
        | cons z zs =>
          have hm : c ∈ xs := by
            by_contra hnm
            have := splitChar_not_mem hnm
            rw [hr] at this
            simp at this
          rw [if_pos (Or.inr hm)]
          rw [List.getLast?_cons_cons]
          rw [List.getLast?_cons_cons] at ih
          exact ih

theorem lastSeg_eq_spec (c : Char) (s : String) :
    lastSeg c s = (specLastSegment c s.data).asString := by
  rw [lastSeg, List.getLastD_eq_getLast?, getLast?_splitChar]
  rfl

theorem specLastSegment_not_mem {c : Char} {l : List Char} (h : c ∉ l) :
    specLastSegment c l = l := by
  cases l with
  | nil => rfl
  | cons x xs =>
    have hx : x ≠ c := fun he => h (by simp [he])
    have hxs : c ∉ xs := fun hm => h (List.mem_cons_of_mem _ hm)
    rw [specLastSegment, if_neg (by tauto)]

theorem asString_data (s : String) : s.data.asString = s := rfl


/-! ### The specification claims -/

theorem bracket_merge (s : String) : "] " ++ ("[" ++ s) = "] [" ++ s := by
  rw [← String.append_assoc]
  rw [show ("] " ++ "[" : String) = "] [" from rfl]

/-- C10: the severity-to-name function is total: each of the five defined
severities maps to its canonical short name ("FATAL", "ERROR", "WARN",
"INFO", "DEBUG"), and every other LogLevel value maps to "UNKNOWN" rather
than failing. -/
theorem claim_C10_level_names_total :
    logLevelString LevelFatal = "FATAL" ∧ logLevelString LevelError = "ERROR" ∧
    logLevelString LevelWarn = "WARN" ∧ logLevelString LevelInfo = "INFO" ∧
    logLevelString LevelDebug = "DEBUG" ∧
    ∀ l : LogLevel, 4 < l → logLevelString l = "UNKNOWN" := by
  refine ⟨rfl, rfl, rfl, rfl, rfl, fun l hl => ?_⟩
  have h4 : l ≠ LevelDebug := fun he => absurd (he ▸ hl) (by decide)
  have h3 : l ≠ LevelInfo := fun he => absurd (he ▸ hl) (by decide)
  have h2 : l ≠ LevelWarn := fun he => absurd (he ▸ hl) (by decide)
  have h1 : l ≠ LevelError := fun he => absurd (he ▸ hl) (by decide)
  have h0 : l ≠ LevelFatal := fun he => absurd (he ▸ hl) (by decide)
  rw [logLevelString, if_neg h4, if_neg h3, if_neg h2, if_neg h1, if_neg h0]

/-- Witness for C10 at the out-of-range level 7. -/
theorem claim_C10_witness : logLevelString 7 = "UNKNOWN" :=
  claim_C10_level_names_total.2.2.2.2.2 7 (by decide)

/-- C2: Fatal applies the same level gate as the other severities, but since
LevelFatal has ordinal 0 and the threshold is unsigned, the gate always
passes: under every reachable state, Fatal emits exactly one line and then
terminates the process with exit status 1, and the suppressed case never
occurs (no threshold is stricter than LevelFatal). -/
theorem claim_C2_fatal_always_emits_and_exits
    (st : LoggerState) (t : DateTime) (cs : CallSite) (msg : String) :
    Fatal st t cs msg =
      (st, [Event.emit LevelFatal (logging st t cs LevelFatal msg), Event.exit 1]) ∧
    ¬ st.logLevel < LevelFatal := by
  constructor
  · rw [Fatal, if_pos (show LevelFatal ≤ st.logLevel from Nat.zero_le _)]
  · exact Nat.not_lt_zero _

/-- C3: EnableDebug sets the threshold to Debug and emits exactly one
Info-level announcement line, for every threshold in effect immediately
before the call (including thresholds stricter than Info), leaving
showTime untouched. -/
theorem claim_C3_enable_debug_announces
    (st : LoggerState) (t : DateTime) (cs : CallSite) :
    (EnableDebug st t cs).1.logLevel = LevelDebug ∧
    (EnableDebug st t cs).1.showTime = st.showTime ∧
    (EnableDebug st t cs).2 =
      [Event.emit LevelInfo
        (logging ⟨LevelDebug, st.showTime⟩ t cs LevelInfo "Debug mode enabled")] :=
  ⟨rfl, rfl, rfl⟩

/-- C6: calling DisableTime twice has the same observable effect as calling
it once: after either, showTime is false and every line rendered afterwards
starts directly with the level group — the timestamp field is absent. -/
theorem claim_C6_disable_time_idempotent
    (st : LoggerState) (t : DateTime) (cs : CallSite) (l : LogLevel) (msg : String) :
    DisableTime (DisableTime st) = DisableTime st ∧
    (DisableTime st).showTime = false ∧
    logging (DisableTime st) t cs l msg =
      "[" ++ colorable l ++ "] [" ++ lastSeg '/' cs.file ++ ":" ++
        toString cs.line ++ ":" ++ lastSeg '.' cs.funcName ++ "] " ++ msg ++ "\n" := by
  refine ⟨rfl, rfl, ?_⟩
  simp [logging, DisableTime, String.append_assoc, bracket_merge]

/-- C4: every emitted line has the shape
`[timestamp] [LEVEL] [file:line:func] message\n` (color escapes ignored),
where LEVEL is the severity's canonical short name and the timestamp is the
local time rendered by the YYYY-MM-DDTHH:MM:SS layout; when timestamps are
disabled the first bracketed group is omitted entirely, leaving exactly the
level and call-site groups in front of the message. -/
theorem claim_C4_line_shape (st : LoggerState) (t : DateTime) (cs : CallSite)
    (l : LogLevel) (msg : String) (hl : l ≤ 4) :
    logging st t cs l msg =
      (if st.showTime then "[" ++ formatTime t ++ "] " else "") ++
        "[" ++ logLevelString l ++ "] [" ++ lastSeg '/' cs.file ++ ":" ++
        toString cs.line ++ ":" ++ lastSeg '.' cs.funcName ++ "] " ++ msg ++ "\n" := by
  rw [logging, colorable, if_pos hl]
  by_cases h : st.showTime <;> simp [h, String.append_assoc, bracket_merge]

/-- Witness for C4 at level Info with a concrete state, time, and call site. -/
theorem claim_C4_witness :
    logging ⟨3, true⟩ ⟨2021, 1, 2, 3, 4, 5⟩ ⟨"/x/main.go", 10, "main.main"⟩ 3 "hi" =
      (if (⟨3, true⟩ : LoggerState).showTime
        then "[" ++ formatTime ⟨2021, 1, 2, 3, 4, 5⟩ ++ "] " else "") ++
        "[" ++ logLevelString 3 ++ "] [" ++ lastSeg '/' "/x/main.go" ++ ":" ++
        toString (10 : Nat) ++ ":" ++ lastSeg '.' "main.main" ++ "] " ++ "hi" ++ "\n" :=
  claim_C4_line_shape ⟨3, true⟩ ⟨2021, 1, 2, 3, 4, 5⟩ ⟨"/x/main.go", 10, "main.main"⟩
    3 "hi" (by decide)


/-- C1: for every severity S among the five level-named calls and every
threshold held in the state (including out-of-range values installed via
SetLogLevel), the call at severity S emits exactly one line iff
ordinal(S) <= ordinal(threshold), and is otherwise suppressed. -/
theorem claim_C1_level_gate (S : LogLevel) (hS : S ≤ 4) (st : LoggerState)
    (t : DateTime) (cs : CallSite) (msg : String) :
    emittedLines (callAt S st t cs msg).2 =
      if S ≤ st.logLevel then [(S, logging st t cs S msg)] else [] := by
  interval_cases S <;>
    simp only [callAt, Fatal, Error, Warn, Info, Debug, LevelFatal, LevelError,
      LevelWarn, LevelInfo, LevelDebug] <;>
    split <;> simp_all [emittedLines]

/-- Witness for C1: at threshold Info, an Info call emits and a Debug call
does not. -/
theorem claim_C1_witness :
    emittedLines (callAt 3 ⟨3, true⟩ ⟨2021, 1, 2, 3, 4, 5⟩ ⟨"a/b.go", 7, "p.f"⟩ "m").2 =
      (if 3 ≤ (⟨3, true⟩ : LoggerState).logLevel
        then [(3, logging ⟨3, true⟩ ⟨2021, 1, 2, 3, 4, 5⟩ ⟨"a/b.go", 7, "p.f"⟩ 3 "m")]
        else []) :=
  claim_C1_level_gate 3 (by decide) ⟨3, true⟩ ⟨2021, 1, 2, 3, 4, 5⟩ ⟨"a/b.go", 7, "p.f"⟩ "m"

/-- C5: no level-named call ever modifies the logger state (threshold and
showTime are unchanged whether the call emits or not), and when the level
gate fails the call produces no events at all. -/
theorem claim_C5_gated_calls_frame (S : LogLevel) (hS : S ≤ 4) (st : LoggerState)
    (t : DateTime) (cs : CallSite) (msg : String) :
    (callAt S st t cs msg).1 = st ∧
    (st.logLevel < S → (callAt S st t cs msg).2 = []) := by
  interval_cases S <;>
    refine ⟨?_, fun h => ?_⟩ <;>
    simp only [callAt, Fatal, Error, Warn, Info, Debug, LevelFatal, LevelError,
      LevelWarn, LevelInfo, LevelDebug]
  all_goals first
    | (split <;> rfl)
    | (rw [if_neg (Nat.not_le.mpr h)])

/-- Witness for C5: a suppressed Debug call at threshold Info changes
nothing and emits nothing. -/
theorem claim_C5_witness :
    (callAt 4 ⟨3, true⟩ ⟨2021, 1, 2, 3, 4, 5⟩ ⟨"a/b.go", 7, "p.f"⟩ "m").1 = ⟨3, true⟩ ∧
    (callAt 4 ⟨3, true⟩ ⟨2021, 1, 2, 3, 4, 5⟩ ⟨"a/b.go", 7, "p.f"⟩ "m").2 = [] :=
  ⟨(claim_C5_gated_calls_frame 4 (by decide) ⟨3, true⟩ ⟨2021, 1, 2, 3, 4, 5⟩
      ⟨"a/b.go", 7, "p.f"⟩ "m").1,
   (claim_C5_gated_calls_frame 4 (by decide) ⟨3, true⟩ ⟨2021, 1, 2, 3, 4, 5⟩
      ⟨"a/b.go", 7, "p.f"⟩ "m").2 (by decide)⟩

/-- C7: no log call fails the caller: for every state, time, call site and
formatted message, the only call that produces a process termination event
is Fatal (severity 0) — every other severity returns normally whether it
emits or not — and unresolvable call-site metadata (empty path, line 0,
empty function name) degrades to empty segments in a well-formed line
instead of failing. -/
theorem claim_C7_never_fails_caller (S : LogLevel) (hS : S ≤ 4) (st : LoggerState)
    (t : DateTime) (cs : CallSite) (msg : String) :
    (hasExit (callAt S st t cs msg).2 = true ↔ S = 0) ∧
    logging st t ⟨"", 0, ""⟩ S msg =
      (if st.showTime then "[" ++ formatTime t ++ "] " else "") ++
        ("[" ++ colorable S ++ "] [:0:] " ++ msg ++ "\n") := by
  constructor
  · interval_cases S <;>
      simp only [callAt, Fatal, Error, Warn, Info, Debug, LevelFatal, LevelError,
        LevelWarn, LevelInfo, LevelDebug] <;>
      first
        | (rw [if_pos (Nat.zero_le _)]; simp [hasExit])
        | (split <;> simp [hasExit])
  · rw [logging]
    have hfile : lastSeg '/' "" = "" := rfl
    have hname : lastSeg '.' "" = "" := rfl
    have hz : toString (0 : Nat) = "0" := rfl
    by_cases h : st.showTime <;>
      simp [h, hfile, hname, hz, String.append_assoc, bracket_merge]

/-- Witness for C7: a gated Error call at threshold Info has no exit event,
and the degenerate call site renders as empty segments. -/
theorem claim_C7_witness :
    (hasExit (callAt 1 ⟨3, true⟩ ⟨2021, 1, 2, 3, 4, 5⟩ ⟨"a/b.go", 7, "p.f"⟩ "m").2 = true ↔
      (1 : LogLevel) = 0) ∧
    logging ⟨3, true⟩ ⟨2021, 1, 2, 3, 4, 5⟩ ⟨"", 0, ""⟩ 1 "m" =
      (if (⟨3, true⟩ : LoggerState).showTime
        then "[" ++ formatTime ⟨2021, 1, 2, 3, 4, 5⟩ ++ "] " else "") ++
        ("[" ++ colorable 1 ++ "] [:0:] " ++ "m" ++ "\n") :=
  claim_C7_never_fails_caller 1 (by decide) ⟨3, true⟩ ⟨2021, 1, 2, 3, 4, 5⟩
    ⟨"a/b.go", 7, "p.f"⟩ "m"

/-- C8: for every full file path and fully qualified function name, the
rendered file name is the last '/'-separated segment of the path and the
rendered function name is the last '.'-separated segment of the qualified
name; a string containing no separator is rendered whole. -/
theorem claim_C8_call_site_segments (path fn : String) :
    lastSeg '/' path = (specLastSegment '/' path.data).asString ∧
    lastSeg '.' fn = (specLastSegment '.' fn.data).asString ∧
    ('/' ∉ path.data → lastSeg '/' path = path) ∧
    ('.' ∉ fn.data → lastSeg '.' fn = fn) := by
  refine ⟨lastSeg_eq_spec _ _, lastSeg_eq_spec _ _, fun h => ?_, fun h => ?_⟩
  · rw [lastSeg_eq_spec, specLastSegment_not_mem h, asString_data]
  · rw [lastSeg_eq_spec, specLastSegment_not_mem h, asString_data]

/-- Witness for C8 on a concrete path and qualified function name. -/
theorem claim_C8_witness :
    lastSeg '/' "a/b/main.go" = (specLastSegment '/' "a/b/main.go".data).asString ∧
    lastSeg '.' "pkg.Run" = (specLastSegment '.' "pkg.Run".data).asString ∧
    lastSeg '/' "plain.go" = "plain.go" ∧
    lastSeg '.' "shortfn" = "shortfn" :=
  ⟨(claim_C8_call_site_segments "a/b/main.go" "pkg.Run").1,
   (claim_C8_call_site_segments "a/b/main.go" "pkg.Run").2.1,
   (claim_C8_call_site_segments "plain.go" "x").2.2.1 (by decide),
   (claim_C8_call_site_segments "x" "shortfn").2.2.2 (by decide)⟩

/-- The showTime flag is preserved by any single operation once false. -/
theorem stepState_showTime_false (st : LoggerState) (o : Op)
    (h : st.showTime = false) : (stepState st o).showTime = false := by
  cases o <;>
    simp only [stepState, step, DisableTime, SetLogLevel, EnableDebug,
      Debug, Info, Warn, Error, Fatal] <;>
    first
      | rfl
      | exact h
      | (split <;> exact h)

/-- C9: once showTime is false it remains false under every sequence of
public operations, and DisableTime is the only public operation that writes
showTime — every other operation preserves it. -/
theorem claim_C9_showTime_latches (st : LoggerState) (ops : List Op) :
    (st.showTime = false → (runOps st ops).showTime = false) ∧
    (∀ o : Op, o ≠ Op.disableTime → (stepState st o).showTime = st.showTime) := by
  constructor
  · have key : ∀ (os : List Op) (s : LoggerState), s.showTime = false →
        (runOps s os).showTime = false := by
      intro os
      induction os with
      | nil => intro s h; exact h
      | cons o os ih => intro s h; exact ih _ (stepState_showTime_false s o h)
    exact key ops st
  · intro o ho
    cases o with
    | disableTime => exact absurd rfl ho
    | enableDebug t cs => rfl
    | setLogLevel l => rfl
    | debug t cs m =>
      simp only [stepState, step, Debug]; split <;> rfl
    | info t cs m =>
      simp only [stepState, step, Info]; split <;> rfl
    | warn t cs m =>
      simp only [stepState, step, Warn]; split <;> rfl
    | error t cs m =>
      simp only [stepState, step, Error]; split <;> rfl
    | fatal t cs m =>
      simp only [stepState, step, Fatal]; split <;> rfl

/-- Witness for C9: after disabling timestamps, a set-level, enable-debug and
info sequence leaves showTime false, and a concrete non-disable operation
preserves showTime. -/
theorem claim_C9_witness :
    (runOps ⟨3, false⟩ [Op.setLogLevel 0,
        Op.enableDebug ⟨2021, 1, 2, 3, 4, 5⟩ ⟨"a.go", 1, "m.f"⟩,
        Op.info ⟨2021, 1, 2, 3, 4, 5⟩ ⟨"a.go", 1, "m.f"⟩ "x"]).showTime = false ∧
    (stepState ⟨3, false⟩ (Op.setLogLevel 2)).showTime =
      (⟨3, false⟩ : LoggerState).showTime :=
  ⟨(claim_C9_showTime_latches ⟨3, false⟩ [Op.setLogLevel 0,
        Op.enableDebug ⟨2021, 1, 2, 3, 4, 5⟩ ⟨"a.go", 1, "m.f"⟩,
        Op.info ⟨2021, 1, 2, 3, 4, 5⟩ ⟨"a.go", 1, "m.f"⟩ "x"]).1 rfl,
   (claim_C9_showTime_latches ⟨3, false⟩ []).2 (Op.setLogLevel 2) (by simp)⟩

end WabarcLogger
